import Mathlib

/-!
Verification development for the sponsor-register tracker (`tracker.py`).

The tracker keeps a master table of every sponsor row ever seen, diffs each
new snapshot of the government register against the active subset of that
table, stamps lifecycle dates (`first_seen`, `last_updated`, `removed_date`),
and derives a stats document, a per-day history ledger and a daily delta from
the updated table.

The model below is a shallow embedding of the Python source:
* strings are lists of ASCII code points (`Str`);
* calendar dates are integers (day numbers); the canonical date string
  `"2026-01-15"` that the source hard-codes becomes the constant
  `date20260115`;
* pandas dataframes become `List Row` / `List SnapRow`, with the boolean-mask
  updates of `update_master_register` expressed as `List.filter` / `List.map`;
* the float comparison `added_count > len(active_df) * 0.9` is modelled by
  the exact inequality `10 * added > 9 * active`;
* `pd.sort_values` / Python `list.sort` are modelled with the stable
  `List.insertionSort`;
* the wall clock read by `datetime.utcnow()` in `generate_stats` is an
  explicit parameter.
-/

/-- Strings of the source are modelled as lists of ASCII code points. -/
abbrev Str := List Nat

/-- Whitespace test for the characters removed by pandas `str.strip`. -/
def isSpace (n : Nat) : Bool :=
  decide (n = 32 ∨ n = 9 ∨ n = 10 ∨ n = 11 ∨ n = 12 ∨ n = 13)

/-- ASCII upper-case letter. -/
def isUpperCh (n : Nat) : Bool := decide (65 ≤ n ∧ n ≤ 90)

/-- ASCII lower-case letter. -/
def isLowerCh (n : Nat) : Bool := decide (97 ≤ n ∧ n ≤ 122)

/-- ASCII letter (model of Python's cased-character test). -/
def isAlphaCh (n : Nat) : Bool := decide (65 ≤ n ∧ n ≤ 90 ∨ 97 ≤ n ∧ n ≤ 122)

/-- ASCII lower-casing of one character. -/
def lowerCh (n : Nat) : Nat := if isUpperCh n then n + 32 else n

/-- ASCII upper-casing of one character. -/
def upperCh (n : Nat) : Nat := if isLowerCh n then n - 32 else n

/-- Model of pandas `str.strip`: drop whitespace at both ends. -/
def stripStr (s : Str) : Str :=
  ((s.dropWhile isSpace).reverse.dropWhile isSpace).reverse

/-- Worker loop of Python `str.title`: the boolean state records whether the
previous character was alphabetic; an alphabetic character is upper-cased when
it starts a word and lower-cased otherwise. -/
def titleGo : Bool → Str → Str
  | _, [] => []
  | p, c :: cs =>
    (if isAlphaCh c then (if p then lowerCh c else upperCh c) else c) ::
      titleGo (isAlphaCh c) cs

/-- Model of pandas `str.title`. -/
def titleStr (s : Str) : Str := titleGo false s

/-- Normalization `generate_unique_id` applies to every identity field other
than `Town/City`: strip surrounding whitespace. -/
def normPlain (s : Str) : Str := stripStr s

/-- Normalization `generate_unique_id` applies to `Town/City`: strip, then
title-case. -/
def normCity (s : Str) : Str := titleStr (stripStr s)

/-- Character-wise lower-casing of a string; two strings differ only in
letter case exactly when their `lowerStr` images agree. -/
def lowerStr (s : Str) : Str := s.map lowerCh

/-- Row of the downloaded snapshot: the five identity fields of the register
(`Organisation Name`, `Town/City`, `County`, `Type & Rating`, `Route`). -/
structure SnapRow where
  org : Str
  city : Str
  county : Str
  typeRating : Str
  route : Str
deriving DecidableEq

/-- Field normalization performed in place by `generate_unique_id`. -/
def normSnapRow (r : SnapRow) : SnapRow :=
  { org := normPlain r.org
    city := normCity r.city
    county := normPlain r.county
    typeRating := normPlain r.typeRating
    route := normPlain r.route }

/-- Code point of the delimiter used to join the identity fields. -/
def sepCh : Nat := 124

/-- Joining of the five fields of an (already normalized) row with the
delimiter, as in the f-string of `generate_unique_id`. -/
def joinFields (r : SnapRow) : Str :=
  r.org ++ (sepCh :: (r.city ++ (sepCh :: (r.county ++ (sepCh ::
    (r.typeRating ++ (sepCh :: r.route)))))))

/-- Identity assigned to one snapshot row by `generate_unique_id`. -/
def rowIdent (r : SnapRow) : Str := joinFields (normSnapRow r)

theorem lowerCh_isSpace {c d : Nat} (h : lowerCh c = lowerCh d) :
    isSpace c = isSpace d := by
  unfold lowerCh isUpperCh at h
  unfold isSpace
  simp only [decide_eq_decide]
  split_ifs at h <;> simp only [decide_eq_true_eq] at * <;> omega

theorem lowerCh_isAlpha {c d : Nat} (h : lowerCh c = lowerCh d) :
    isAlphaCh c = isAlphaCh d := by
  unfold lowerCh isUpperCh at h
  unfold isAlphaCh
  simp only [decide_eq_decide]
  split_ifs at h <;> simp only [decide_eq_true_eq] at * <;> omega

theorem lowerCh_upperCh {c d : Nat} (h : lowerCh c = lowerCh d) :
    upperCh c = upperCh d := by
  unfold lowerCh isUpperCh at h
  unfold upperCh isLowerCh
  split_ifs at * <;> simp only [decide_eq_true_eq] at * <;> omega

theorem lowerCh_eq_of_not_alpha {c d : Nat} (h : lowerCh c = lowerCh d)
    (hc : isAlphaCh c = false) : c = d := by
  unfold lowerCh isUpperCh at h
  unfold isAlphaCh at hc
  split_ifs at h <;>
    simp only [decide_eq_true_eq, decide_eq_false_iff_not] at * <;> omega

theorem lowerStr_dropWhile (s : Str) :
    ∀ t : Str, lowerStr s = lowerStr t →
      lowerStr (s.dropWhile isSpace) = lowerStr (t.dropWhile isSpace) := by
  induction s with
  | nil =>
    intro t h
    cases t with
    | nil => rfl
    | cons d ds => simp [lowerStr] at h
  | cons c cs ih =>
    intro t h
    cases t with
    | nil => simp [lowerStr] at h
    | cons d ds =>
      simp only [lowerStr, List.map_cons, List.cons.injEq] at h
      obtain ⟨h1, h2⟩ := h
      have hs := lowerCh_isSpace h1
      simp only [List.dropWhile_cons]
      rw [← hs]
      by_cases hsp : isSpace c = true
      · simp only [hsp, if_true]
        exact ih ds h2
      · simp only [hsp, if_false]
        simp [lowerStr, h1, h2]

theorem lowerStr_reverse (s : Str) : lowerStr s.reverse = (lowerStr s).reverse := by
  simp [lowerStr, List.map_reverse]

theorem lowerStr_strip {s t : Str} (h : lowerStr s = lowerStr t) :
    lowerStr (stripStr s) = lowerStr (stripStr t) := by
  unfold stripStr
  have h1 := lowerStr_dropWhile s t h
  have h2 : lowerStr (s.dropWhile isSpace).reverse =
      lowerStr (t.dropWhile isSpace).reverse := by
    rw [lowerStr_reverse, lowerStr_reverse, h1]
  have h3 := lowerStr_dropWhile _ _ h2
  rw [lowerStr_reverse, lowerStr_reverse, h3]

theorem titleGo_congr (s : Str) :
    ∀ (p : Bool) (t : Str), lowerStr s = lowerStr t → titleGo p s = titleGo p t := by
  induction s with
  | nil =>
    intro p t h
    cases t with
    | nil => rfl
    | cons d ds => simp [lowerStr] at h
  | cons c cs ih =>
    intro p t h
    cases t with
    | nil => simp [lowerStr] at h
    | cons d ds =>
      simp only [lowerStr, List.map_cons, List.cons.injEq] at h
      obtain ⟨h1, h2⟩ := h
      have ha := lowerCh_isAlpha h1
      have ht := ih (isAlphaCh c) ds h2
      unfold titleGo
      rw [← ha, ht]
      by_cases hal : isAlphaCh c = true
      · cases p <;> simp [hal, h1, lowerCh_upperCh h1]
      · have hf : isAlphaCh c = false := by simpa using hal
        have hceq : c = d := lowerCh_eq_of_not_alpha h1 hf
        simp [hf, hceq]

theorem normCity_congr {s t : Str} (h : lowerStr s = lowerStr t) :
    normCity s = normCity t := by
  unfold normCity titleStr
  exact titleGo_congr _ false _ (lowerStr_strip h)

theorem sep_split {a : Str} :
    ∀ {c x y : Str}, sepCh ∉ a → sepCh ∉ c →
      a ++ sepCh :: x = c ++ sepCh :: y → a = c := by
  induction a with
  | nil =>
    intro c x y _ hc h
    cases c with
    | nil => rfl
    | cons e es =>
      simp only [List.nil_append, List.cons_append, List.cons.injEq] at h
      exact absurd (by simp [← h.1]) hc
  | cons b bs ih =>
    intro c x y hb hc h
    cases c with
    | nil =>
      simp only [List.cons_append, List.nil_append, List.cons.injEq] at h
      exact absurd (by simp [h.1]) hb
    | cons e es =>
      simp only [List.cons_append, List.cons.injEq] at h
      have hb2 : sepCh ∉ bs := fun hm => hb (List.mem_cons_of_mem _ hm)
      have hc2 : sepCh ∉ es := fun hm => hc (List.mem_cons_of_mem _ hm)
      rw [h.1, ih hb2 hc2 h.2]

/-- Concrete rows refuting C8 as stated: the organisation names differ after
trimming, but the `|` delimiter occurring inside the fields makes the two
identity strings coincide ("A|B" + "C" versus "A" + "B|C"). -/
def c8row1 : SnapRow := ⟨[65, 124, 66], [67], [], [], []⟩

/-- Second concrete row for the C8 counterexample. -/
def c8row2 : SnapRow := ⟨[65], [66, 124, 67], [], [], []⟩

/-- C8 (counterexample): two rows whose organisation names differ after
trimming nevertheless receive the same identity string, because the join
delimiter `|` may occur inside a field. -/
theorem c8_counterexample :
    stripStr c8row1.org ≠ stripStr c8row2.org ∧ rowIdent c8row1 = rowIdent c8row2 := by
  constructor
  · decide
  · decide

/-- C8 (amended): rows that differ only in the letter case of the city field
get the same identity; rows whose trimmed organisation names differ get
different identities provided neither trimmed organisation name contains the
`|` delimiter; and the route field (representative of the non-city fields) is
not case-folded: rows equal except for distinct trimmed routes get different
identities. -/
theorem c8_amended :
    (∀ r1 r2 : SnapRow, r1.org = r2.org → r1.county = r2.county →
        r1.typeRating = r2.typeRating → r1.route = r2.route →
        lowerStr r1.city = lowerStr r2.city → rowIdent r1 = rowIdent r2) ∧
    (∀ r1 r2 : SnapRow, stripStr r1.org ≠ stripStr r2.org →
        sepCh ∉ stripStr r1.org → sepCh ∉ stripStr r2.org →
        rowIdent r1 ≠ rowIdent r2) ∧
    (∀ r1 r2 : SnapRow, r1.org = r2.org → r1.city = r2.city →
        r1.county = r2.county → r1.typeRating = r2.typeRating →
        stripStr r1.route ≠ stripStr r2.route → rowIdent r1 ≠ rowIdent r2) := by
  refine ⟨?_, ?_, ?_⟩
  · intro r1 r2 h1 h2 h3 h4 h5
    simp only [rowIdent, joinFields, normSnapRow, normPlain]
    rw [h1, h2, h3, h4, normCity_congr h5]
  · intro r1 r2 hne hp1 hp2 hid
    apply hne
    unfold rowIdent joinFields normSnapRow normPlain at hid
    dsimp only at hid
    exact sep_split hp1 hp2 hid
  · intro r1 r2 h1 h2 h3 h4 hne hid
    apply hne
    unfold rowIdent joinFields normSnapRow normPlain at hid
    dsimp only at hid
    rw [h1, h2, h3, h4] at hid
    simpa using hid

/-- Row of the persisted master register: the five descriptive fields plus
the `id` column and the three lifecycle fields of `update_master_register`.
Dates are day numbers; `removed_date = none` models the NaN of an active row. -/
structure Row where
  org : Str
  city : Str
  county : Str
  typeRating : Str
  route : Str
  id : Str
  first_seen : Int
  last_updated : Int
  removed_date : Option Int
deriving DecidableEq

/-- Worker of key-based deduplication: `seen` accumulates the keys already
emitted; a row whose key was seen is dropped. -/
def dedupByAux {α : Type} (f : α → Str) (seen : List Str) : List α → List α
  | [] => []
  | r :: rs =>
    if f r ∈ seen then dedupByAux f seen rs
    else r :: dedupByAux f (f r :: seen) rs

/-- Deduplication keyed by `f`, keeping the first occurrence: model of
`drop_duplicates(subset=["id"])`. -/
def dedupBy {α : Type} (f : α → Str) (l : List α) : List α := dedupByAux f [] l

/-- Normalization of every snapshot row, as done in place by
`generate_unique_id` before the ids are assigned. -/
def snapNorm (snap : List SnapRow) : List SnapRow := snap.map normSnapRow

/-- Normalized snapshot rows after id-deduplication (first occurrence wins). -/
def snapDedup (snap : List SnapRow) : List SnapRow :=
  dedupBy joinFields (snapNorm snap)

/-- Identities present in the deduplicated snapshot (`new_ids`). -/
def snapIds (snap : List SnapRow) : List Str := (snapDedup snap).map joinFields

/-- Master rows whose `removed_date` is null. -/
def activeRows (m : List Row) : List Row :=
  m.filter fun r => decide (r.removed_date = none)

/-- Identities of the currently active master rows (`active_master_ids`,
also `existing_ids`). -/
def activeIds (m : List Row) : List Str := (activeRows m).map fun r => r.id

/-- Identities added this run (`added_ids = new_ids - existing_ids`). -/
def addedIdsOf (snap : List SnapRow) (m : List Row) : List Str :=
  (snapIds snap).filter fun i => decide (i ∉ activeIds m)

/-- Identities removed this run (`removed_ids = active_master_ids - new_ids`). -/
def removedIdsOf (snap : List SnapRow) (m : List Row) : List Str :=
  (activeIds m).filter fun i => decide (i ∉ snapIds snap)

/-- Master row built from a (normalized) snapshot row newly added on day `d`:
`first_seen = last_updated = d`, `removed_date = None`. -/
def mkRow (r : SnapRow) (d : Int) : Row :=
  { org := r.org, city := r.city, county := r.county,
    typeRating := r.typeRating, route := r.route, id := joinFields r,
    first_seen := d, last_updated := d, removed_date := none }

/-- Rows appended to the master this run (`new_entries`). -/
def newEntriesOf (snap : List SnapRow) (m : List Row) (d : Int) : List Row :=
  ((snapDedup snap).filter fun r =>
    decide (joinFields r ∈ addedIdsOf snap m)).map fun r => mkRow r d

/-- Removal stamping (line `master_df.loc[isin(removed_ids) & isna, ...]`):
an active row whose id was removed gets `removed_date = d`. -/
def stampRemoved (removedIds : List Str) (d : Int) (r : Row) : Row :=
  if r.id ∈ removedIds ∧ r.removed_date = none then
    { r with removed_date := some d } else r

/-- Presence stamping (line `master_df.loc[isin(new_ids), "last_updated"]`):
every row whose id is in the snapshot gets `last_updated = d`. -/
def stampUpdated (newIds : List Str) (d : Int) (r : Row) : Row :=
  if r.id ∈ newIds then { r with last_updated := d } else r

/-- Effect of one run on a single pre-existing master row. -/
def applyRow (snap : List SnapRow) (m : List Row) (d : Int) (r : Row) : Row :=
  stampUpdated (snapIds snap) d (stampRemoved (removedIdsOf snap m) d r)

/-- Model of `update_master_register` on an in-memory master table: append the
new entries, stamp removals, stamp `last_updated`. -/
def updateMaster (snap : List SnapRow) (m : List Row) (d : Int) : List Row :=
  ((m ++ newEntriesOf snap m d).map (stampRemoved (removedIdsOf snap m) d)).map
    (stampUpdated (snapIds snap) d)

theorem stampRemoved_id (ids : List Str) (d : Int) (r : Row) :
    (stampRemoved ids d r).id = r.id := by
  unfold stampRemoved
  split_ifs <;> rfl

theorem stampUpdated_id (ids : List Str) (d : Int) (r : Row) :
    (stampUpdated ids d r).id = r.id := by
  unfold stampUpdated
  split_ifs <;> rfl

theorem applyRow_id (snap : List SnapRow) (m : List Row) (d : Int) (r : Row) :
    (applyRow snap m d r).id = r.id := by
  unfold applyRow
  rw [stampUpdated_id, stampRemoved_id]

theorem updateMaster_eq (snap : List SnapRow) (m : List Row) (d : Int) :
    updateMaster snap m d =
      m.map (applyRow snap m d) ++ (newEntriesOf snap m d).map (applyRow snap m d) := by
  unfold updateMaster applyRow
  simp only [List.map_append, List.map_map]
  rfl

theorem mem_removedIdsOf {snap : List SnapRow} {m : List Row} {i : Str} :
    i ∈ removedIdsOf snap m ↔ i ∈ activeIds m ∧ i ∉ snapIds snap := by
  unfold removedIdsOf
  simp [List.mem_filter]

theorem mem_addedIdsOf {snap : List SnapRow} {m : List Row} {i : Str} :
    i ∈ addedIdsOf snap m ↔ i ∈ snapIds snap ∧ i ∉ activeIds m := by
  unfold addedIdsOf
  simp [List.mem_filter]

theorem mem_activeIds {m : List Row} {r : Row} (hr : r ∈ m)
    (hact : r.removed_date = none) : r.id ∈ activeIds m := by
  unfold activeIds activeRows
  exact List.mem_map_of_mem _ (List.mem_filter.mpr ⟨hr, by simp [hact]⟩)

/-- C10: for a continuing identity (active in the master and present in the
snapshot) the run rewrites the row to itself with only `last_updated` set to
the data date; descriptive fields, `first_seen` and `removed_date` are kept,
whatever the snapshot row carried. The first conjunct shows the whole run is
the per-row map `applyRow` on the old rows plus the appended new entries. -/
theorem c10_continuing_frame (snap : List SnapRow) (m : List Row) (d : Int) :
    updateMaster snap m d =
      m.map (applyRow snap m d) ++ (newEntriesOf snap m d).map (applyRow snap m d) ∧
    ∀ r : Row, r.removed_date = none → r.id ∈ snapIds snap →
      applyRow snap m d r = { r with last_updated := d } := by
  refine ⟨updateMaster_eq snap m d, ?_⟩
  intro r hact hid
  have hsr : stampRemoved (removedIdsOf snap m) d r = r := by
    unfold stampRemoved
    rw [if_neg]
    rintro ⟨hmem, -⟩
    exact (mem_removedIdsOf.mp hmem).2 hid
  unfold applyRow
  rw [hsr]
  unfold stampUpdated
  rw [if_pos hid]

/-- Snapshot used by the C10 witness. -/
def c10snap : List SnapRow := [⟨[65], [66], [], [], []⟩]

/-- Master row used by the C10 witness: active, id matching the snapshot. -/
def c10row : Row :=
  { org := [65], city := [66], county := [], typeRating := [], route := [],
    id := [65, 124, 66, 124, 124, 124], first_seen := 0, last_updated := 0,
    removed_date := none }

theorem c10_witness :
    applyRow c10snap [c10row] 5 c10row = { c10row with last_updated := 5 } :=
  (c10_continuing_frame c10snap [c10row] 5).2 c10row rfl (by decide)

/-- C7: a row whose `removed_date` was stamped on day `d1` is left entirely
unchanged by a later run on day `d2` whose snapshot still lacks its identity;
in particular `removed_date` keeps the value `d1`. -/
theorem c7_soft_delete_permanence (snap : List SnapRow) (m : List Row)
    (d1 d2 : Int) (r : Row) (hr : r ∈ m) (hrd : r.removed_date = some d1)
    (hlt : d1 < d2) (hid : r.id ∉ snapIds snap) :
    applyRow snap m d2 r = r ∧ r ∈ updateMaster snap m d2 ∧
      (applyRow snap m d2 r).removed_date = some d1 := by
  have h1 : stampRemoved (removedIdsOf snap m) d2 r = r := by
    unfold stampRemoved
    rw [if_neg]
    rintro ⟨-, h2⟩
    rw [hrd] at h2
    simp at h2
  have h2 : applyRow snap m d2 r = r := by
    unfold applyRow
    rw [h1]
    unfold stampUpdated
    rw [if_neg hid]
  refine ⟨h2, ?_, by rw [h2, hrd]⟩
  rw [updateMaster_eq]
  apply List.mem_append_left
  have h3 := List.mem_map_of_mem (applyRow snap m d2) hr
  rwa [h2] at h3

/-- Master row used by the C7 witness: removed on day 1. -/
def c7row : Row :=
  { org := [65], city := [66], county := [], typeRating := [], route := [],
    id := [65, 124, 66, 124, 124, 124], first_seen := 0, last_updated := 0,
    removed_date := some 1 }

theorem c7_witness :
    applyRow [] [c7row] 2 c7row = c7row ∧ c7row ∈ updateMaster [] [c7row] 2 ∧
      (applyRow [] [c7row] 2 c7row).removed_date = some 1 :=
  c7_soft_delete_permanence [] [c7row] 1 2 c7row (by simp) rfl (by decide) (by decide)

theorem dedupByAux_mem {α : Type} (f : α → Str) :
    ∀ (seen : List Str) (l : List α) (x : α), x ∈ dedupByAux f seen l → x ∈ l := by
  intro seen l
  induction l generalizing seen with
  | nil => intro x hx; simpa [dedupByAux] using hx
  | cons r rs ih =>
    intro x hx
    unfold dedupByAux at hx
    split_ifs at hx with hs
    · exact List.mem_cons_of_mem r (ih seen x hx)
    · rcases List.mem_cons.mp hx with h | h
      · exact h ▸ List.mem_cons_self r rs
      · exact List.mem_cons_of_mem r (ih _ x h)

theorem dedupByAux_keys_fresh {α : Type} (f : α → Str) :
    ∀ (seen : List Str) (l : List α) (i : Str),
      i ∈ (dedupByAux f seen l).map f → i ∉ seen := by
  intro seen l
  induction l generalizing seen with
  | nil => intro i hi; simp [dedupByAux] at hi
  | cons r rs ih =>
    intro i hi hse
    unfold dedupByAux at hi
    split_ifs at hi with hs
    · exact ih seen i hi hse
    · simp only [List.map_cons, List.mem_cons] at hi
      rcases hi with h | h
      · exact hs (h ▸ hse)
      · exact ih (f r :: seen) i h (List.mem_cons_of_mem _ hse)

theorem dedupByAux_keys_nodup {α : Type} (f : α → Str) :
    ∀ (seen : List Str) (l : List α), ((dedupByAux f seen l).map f).Nodup := by
  intro seen l
  induction l generalizing seen with
  | nil => simp [dedupByAux]
  | cons r rs ih =>
    unfold dedupByAux
    split_ifs with hs
    · exact ih seen
    · rw [List.map_cons, List.nodup_cons]
      refine ⟨?_, ih (f r :: seen)⟩
      intro hmem
      exact dedupByAux_keys_fresh f (f r :: seen) rs (f r) hmem
        (List.mem_cons_self _ _)

theorem snapIds_nodup (snap : List SnapRow) : (snapIds snap).Nodup :=
  dedupByAux_keys_nodup joinFields [] (snapNorm snap)

theorem newEntries_ids (snap : List SnapRow) (m : List Row) (d : Int) :
    (newEntriesOf snap m d).map (fun r => r.id) =
      ((snapDedup snap).filter fun r =>
        decide (joinFields r ∈ addedIdsOf snap m)).map joinFields := by
  unfold newEntriesOf
  rw [List.map_map]
  exact List.map_congr_left fun a _ => rfl

theorem updateMaster_ids (snap : List SnapRow) (m : List Row) (d : Int) :
    (updateMaster snap m d).map (fun r => r.id) =
      m.map (fun r => r.id) ++ (newEntriesOf snap m d).map (fun r => r.id) := by
  rw [updateMaster_eq, List.map_append, List.map_map, List.map_map]
  congr 1 <;> exact List.map_congr_left fun a _ => applyRow_id ..

/-- Snapshot used by the C3 counterexample and witness. -/
def c3snap : List SnapRow := [⟨[65], [66], [], [], []⟩]

/-- Master row for the C3 counterexample: same identity as the snapshot row,
but already soft-deleted (`removed_date` set). -/
def c3old : Row :=
  { org := [65], city := [66], county := [], typeRating := [], route := [],
    id := [65, 124, 66, 124, 124, 124], first_seen := 0, last_updated := 0,
    removed_date := some 1 }

/-- C3 (counterexample): when an identity whose master row is already
soft-deleted reappears in a snapshot, `update_master_register` appends a
second row with the same id — the id column of the persisted table is no
longer unique. -/
theorem c3_counterexample :
    ¬ ((updateMaster c3snap [c3old] 2).map (fun r => r.id)).Nodup := by decide

/-- C3 (amended): after a run the id column is unique, provided the starting
master table had unique ids and the snapshot contains no identity that
belongs to an inactive (soft-deleted) master row. -/
theorem c3_amended (snap : List SnapRow) (m : List Row) (d : Int)
    (hm : (m.map (fun r => r.id)).Nodup)
    (hre : ∀ r ∈ m, r.removed_date ≠ none → r.id ∉ snapIds snap) :
    ((updateMaster snap m d).map (fun r => r.id)).Nodup := by
  rw [updateMaster_ids, List.nodup_append]
  have hsub : List.Sublist ((newEntriesOf snap m d).map (fun r => r.id)) (snapIds snap) := by
    rw [newEntries_ids]
    unfold snapIds
    exact (List.filter_sublist _).map _
  refine ⟨hm, hsub.nodup (snapIds_nodup snap), ?_⟩
  intro a ham hanew
  simp only [List.mem_map] at ham
  obtain ⟨r, hr, rfl⟩ := ham
  rw [newEntries_ids] at hanew
  simp only [List.mem_map, List.mem_filter, decide_eq_true_eq] at hanew
  obtain ⟨x, ⟨-, hadd⟩, hfx⟩ := hanew
  rw [hfx] at hadd
  obtain ⟨hsnap, hnact⟩ := mem_addedIdsOf.mp hadd
  by_cases hact : r.removed_date = none
  · exact hnact (mem_activeIds hr hact)
  · exact hre r hr hact hsnap

theorem c3_amended_witness :
    ((updateMaster c3snap [] 0).map (fun r => r.id)).Nodup :=
  c3_amended c3snap [] 0 (by simp) (by simp)

/-- C9: updating with an empty snapshot soft-deletes every active row: the
result is the old table with `removed_date := d` stamped on each active row,
no rows are appended, and the resulting active set is empty. -/
theorem c9_empty_snapshot (m : List Row) (d : Int)
    (hne : ∃ r ∈ m, r.removed_date = none) :
    updateMaster [] m d =
      m.map (fun r =>
        if r.removed_date = none then { r with removed_date := some d } else r) ∧
    (updateMaster [] m d).length = m.length ∧
    (updateMaster [] m d).filter (fun r => decide (r.removed_date = none)) = [] := by
  have hmain : updateMaster [] m d =
      m.map (fun r =>
        if r.removed_date = none then { r with removed_date := some d } else r) := by
    rw [updateMaster_eq]
    have hnew : newEntriesOf [] m d = [] := rfl
    rw [hnew]
    simp only [List.map_nil, List.append_nil]
    apply List.map_congr_left
    intro r hrm
    unfold applyRow
    have h1 : ∀ r2 : Row, stampUpdated (snapIds []) d r2 = r2 := by
      intro r2
      unfold stampUpdated
      rw [if_neg]
      simp [snapIds, snapDedup, snapNorm, dedupBy, dedupByAux]
    rw [h1]
    unfold stampRemoved
    by_cases hact : r.removed_date = none
    · have hmem : r.id ∈ removedIdsOf [] m := by
        rw [mem_removedIdsOf]
        refine ⟨mem_activeIds hrm hact, ?_⟩
        simp [snapIds, snapDedup, snapNorm, dedupBy, dedupByAux]
      rw [if_pos ⟨hmem, hact⟩, if_pos hact]
    · rw [if_neg (by rintro ⟨-, h2⟩; exact hact h2), if_neg hact]
  refine ⟨hmain, by rw [hmain, List.length_map], ?_⟩
  rw [hmain]
  apply List.filter_eq_nil_iff.mpr
  intro a ha
  simp only [List.mem_map] at ha
  obtain ⟨r, -, rfl⟩ := ha
  by_cases hact : r.removed_date = none
  · rw [if_pos hact]
    simp
  · rw [if_neg hact]
    simpa using hact

/-- Master row used by the C9 witness: one active row. -/
def c9row : Row :=
  { org := [65], city := [66], county := [], typeRating := [], route := [],
    id := [65, 124, 66, 124, 124, 124], first_seen := 0, last_updated := 0,
    removed_date := none }

theorem c9_witness :
    updateMaster [] [c9row] 7 =
      [c9row].map (fun r =>
        if r.removed_date = none then { r with removed_date := some 7 } else r) ∧
    (updateMaster [] [c9row] 7).length = ([c9row] : List Row).length ∧
    (updateMaster [] [c9row] 7).filter (fun r => decide (r.removed_date = none)) = [] :=
  c9_empty_snapshot [c9row] 7 ⟨c9row, by simp, rfl⟩

/-- Day number (days since 1970-01-01) of the date string `"2026-01-15"`
hard-coded in `generate_stats` as the baseline ("Day 1") date. -/
def date20260115 : Int := 20468

/-- Projection used for the "added in last 7 days" entries of the stats
document: `Organisation Name`, `Town/City`, `Route`, `first_seen`. -/
structure ProjAdded where
  org : Str
  city : Str
  route : Str
  first_seen : Int
deriving DecidableEq

/-- Projection used for the "removed in last 14 days" entries. -/
structure ProjRemoved where
  org : Str
  city : Str
  route : Str
  removed_date : Option Int
deriving DecidableEq

/-- Reduced row for the "added" part of the stats recency list. -/
def projAdded (r : Row) : ProjAdded := ⟨r.org, r.city, r.route, r.first_seen⟩

/-- Reduced row for the "removed" part of the stats recency list. -/
def projRemoved (r : Row) : ProjRemoved := ⟨r.org, r.city, r.route, r.removed_date⟩

/-- Rows whose `first_seen` equals the data date (`added_today_df`). -/
def addedTodayRows (m : List Row) (d : Int) : List Row :=
  m.filter fun r => decide (r.first_seen = d)

/-- Rows whose `removed_date` equals the data date (`removed_today_df`). -/
def removedTodayRows (m : List Row) (d : Int) : List Row :=
  m.filter fun r => decide (r.removed_date = some d)

/-- First occurrences of the values in a list, in order of appearance. -/
def uniqueVals (l : List Str) : List Str := dedupBy (fun s => s) l

/-- Number of occurrences of one value. -/
def countVal (l : List Str) (v : Str) : Nat :=
  (l.filter fun x => decide (x = v)).length

/-- Descending-count relation used to rank value frequencies. -/
def cntDesc (a b : Str × Nat) : Prop := b.2 ≤ a.2

instance : DecidableRel cntDesc := fun a b =>
  inferInstanceAs (Decidable (b.2 ≤ a.2))

instance : IsTotal (Str × Nat) cntDesc := ⟨fun a b => le_total b.2 a.2⟩

instance : IsTrans (Str × Nat) cntDesc := ⟨fun _ _ _ h1 h2 => le_trans h2 h1⟩

/-- Model of pandas `value_counts`: each distinct value with its frequency,
ranked by descending frequency (stable in order of first appearance). -/
def valueCounts (l : List Str) : List (Str × Nat) :=
  List.insertionSort cntDesc ((uniqueVals l).map fun v => (v, countVal l v))

/-- Descending `first_seen` order on master rows. -/
def fsDesc (a b : Row) : Prop := b.first_seen ≤ a.first_seen

instance : DecidableRel fsDesc := fun a b =>
  inferInstanceAs (Decidable (b.first_seen ≤ a.first_seen))

instance : IsTotal Row fsDesc := ⟨fun a b => le_total b.first_seen a.first_seen⟩

instance : IsTrans Row fsDesc := ⟨fun _ _ _ h1 h2 => le_trans h2 h1⟩

/-- Descending `removed_date` order on master rows (absent dates low). -/
def rdDesc (a b : Row) : Prop :=
  b.removed_date.getD 0 ≤ a.removed_date.getD 0

instance : DecidableRel rdDesc := fun a b =>
  inferInstanceAs (Decidable (b.removed_date.getD 0 ≤ a.removed_date.getD 0))

/-- Filter and sort of the "added in last 7 days" block of `generate_stats`:
`first_seen` within 7 days before the data date (no upper bound in the code),
`first_seen` different from the hard-coded baseline date, still active;
sorted by `first_seen` descending. -/
def recentAddedRows (m : List Row) (d : Int) : List Row :=
  List.insertionSort fsDesc
    (m.filter fun r =>
      decide (d - 7 ≤ r.first_seen ∧ r.first_seen ≠ date20260115 ∧
        r.removed_date = none))

/-- Filter and sort of the "removed in last 14 days" block: `removed_date`
within 14 days before the data date, sorted descending, not capped. -/
def recentRemovedRows (m : List Row) (d : Int) : List Row :=
  List.insertionSort rdDesc
    (m.filter fun r =>
      decide (∃ x, r.removed_date = some x ∧ d - 14 ≤ x))

/-- Bulk-import guard of `generate_stats` line 212: the day's adds exceed 90%
of the active count AND the data date is the hard-coded `"2026-01-15"`. The
float comparison `added > active * 0.9` is modelled exactly as
`10 * added > 9 * active`. -/
def bulkGuard (m : List Row) (d : Int) : Prop :=
  10 * (addedTodayRows m d).length > 9 * (activeRows m).length ∧ d = date20260115

instance (m : List Row) (d : Int) : Decidable (bulkGuard m d) :=
  inferInstanceAs (Decidable (_ ∧ _))

/-- Stats document produced by `generate_stats` (the `generated_at` wall-clock
stamp is the parameter `t`). -/
structure Stats where
  generated_at : Int
  added_today : Nat
  removed_today : Nat
  total_active_sponsors : Nat
  unique_organisations : Nat
  unique_cities : Nat
  unique_routes : Nat
  top_routes : List (Str × Nat)
  top_cities : List (Str × Nat)
  top_ratings : List (Str × Nat)
  added_last_7_days : List ProjAdded
  removed_last_14_days : List ProjRemoved
deriving DecidableEq

/-- Model of `generate_stats`: counts and rankings over the active rows (with
the city re-normalized for the categorical fields, as the code does on its
`active_df` copy), plus the two recency lists over the whole master. -/
def generateStats (m : List Row) (d : Int) (t : Int) : Stats :=
  { generated_at := t
    added_today := (addedTodayRows m d).length
    removed_today := (removedTodayRows m d).length
    total_active_sponsors := (activeRows m).length
    unique_organisations := (uniqueVals ((activeRows m).map fun r => r.org)).length
    unique_cities :=
      (uniqueVals ((activeRows m).map fun r => normCity r.city)).length
    unique_routes := (uniqueVals ((activeRows m).map fun r => r.route)).length
    top_routes := (valueCounts ((activeRows m).map fun r => r.route)).take 5
    top_cities := (valueCounts ((activeRows m).map fun r => normCity r.city)).take 5
    top_ratings := (valueCounts ((activeRows m).map fun r => r.typeRating)).take 5
    added_last_7_days :=
      if bulkGuard m d then []
      else ((recentAddedRows m d).take 1000).map projAdded
    removed_last_14_days := (recentRemovedRows m d).map projRemoved }

/-- Active master row used by the C2 counterexample: added on the data date
2026-01-17, which differs from the hard-coded baseline. -/
def c2row : Row :=
  { org := [65], city := [66], county := [], typeRating := [], route := [67],
    id := [65], first_seen := 20470, last_updated := 20470,
    removed_date := none }

/-- C2 (counterexample): a one-row table where all rows were added on the
data date satisfies the 90% proportion, yet on a data date other than
2026-01-15 the "added in last 7 days" list is not empty — the code's guard
additionally requires `file_date == "2026-01-15"`. -/
theorem c2_counterexample :
    10 * (addedTodayRows [c2row] 20470).length >
        9 * (activeRows [c2row]).length ∧
      (generateStats [c2row] 20470 0).added_last_7_days ≠ [] := by
  constructor
  · decide
  · decide

/-- C2 (amended): the bulk-import guard empties the "added in last 7 days"
list when the day's adds exceed 90% of the active count AND the data date is
the hard-coded baseline 2026-01-15; the proportion alone does not suffice. -/
theorem c2_amended (m : List Row) (d t : Int)
    (h1 : 10 * (addedTodayRows m d).length > 9 * (activeRows m).length)
    (h2 : d = date20260115) :
    (generateStats m d t).added_last_7_days = [] := by
  have hb : bulkGuard m d := ⟨h1, h2⟩
  unfold generateStats
  simp only [if_pos hb]

/-- Active master row used by the C2 witness: added on the baseline date. -/
def c2browA : Row :=
  { org := [65], city := [66], county := [], typeRating := [], route := [67],
    id := [65], first_seen := 20468, last_updated := 20468,
    removed_date := none }

theorem c2_amended_witness :
    (generateStats [c2browA] 20468 0).added_last_7_days = [] :=
  c2_amended [c2browA] 20468 0 (by decide) rfl

/-- Statement of the recency list in the spec's words: active rows whose
`first_seen` lies within the inclusive 7-day window ending at the data date,
sorted by `first_seen` descending, capped at 1000, reduced projection. This
definition follows the specification text and is compared against the code's
`generate_stats` output. -/
def specAddedLast7 (m : List Row) (d : Int) : List ProjAdded :=
  ((List.insertionSort fsDesc
    (m.filter fun r =>
      decide (r.removed_date = none ∧ d - 7 ≤ r.first_seen ∧
        r.first_seen ≤ d))).take 1000).map projAdded

/-- Active master row used by the C6 counterexample: added on the baseline
date 2026-01-15, inside the 7-day window of the data date 2026-01-18. -/
def c6row : Row :=
  { org := [65], city := [66], county := [], typeRating := [], route := [67],
    id := [65], first_seen := 20468, last_updated := 20468,
    removed_date := none }

/-- C6 (counterexample): with the guard not firing, the code's "added in last
7 days" list differs from the spec's window — a row first seen on 2026-01-15,
three days before the data date and inside the inclusive window, is
unconditionally excluded by the code's `first_seen != "2026-01-15"` filter. -/
theorem c6_counterexample :
    ¬ bulkGuard [c6row] 20471 ∧
      (generateStats [c6row] 20471 0).added_last_7_days ≠
        specAddedLast7 [c6row] 20471 := by
  constructor
  · decide
  · decide

/-- Descending `first_seen` order on projected rows. -/
def pfsDesc (a b : ProjAdded) : Prop := b.first_seen ≤ a.first_seen

/-- C6 (amended): when the guard does not fire, the list consists of the
rows passing the code's actual filter — active, `first_seen` at least
`d - 7` (with NO upper bound at the data date) and `first_seen` different
from the hard-coded baseline 2026-01-15 — sorted by `first_seen` descending
and capped at 1000 rows: the output is sorted and at most 1000 long, and
whenever at most 1000 rows pass the filter it is a permutation of the
projected filtered rows. -/
theorem c6_amended (m : List Row) (d t : Int) (hg : ¬ bulkGuard m d) :
    ((generateStats m d t).added_last_7_days).Pairwise pfsDesc ∧
    ((generateStats m d t).added_last_7_days).length ≤ 1000 ∧
    ((m.filter fun r =>
        decide (d - 7 ≤ r.first_seen ∧ r.first_seen ≠ date20260115 ∧
          r.removed_date = none)).length ≤ 1000 →
      ((generateStats m d t).added_last_7_days).Perm
        ((m.filter fun r =>
          decide (d - 7 ≤ r.first_seen ∧ r.first_seen ≠ date20260115 ∧
            r.removed_date = none)).map projAdded)) := by
  have hL : (generateStats m d t).added_last_7_days =
      ((recentAddedRows m d).take 1000).map projAdded := by
    unfold generateStats
    simp only [if_neg hg]
  refine ⟨?_, ?_, ?_⟩
  · rw [hL]
    apply List.Pairwise.map
    · intro a b hab
      exact hab
    · exact (List.sorted_insertionSort fsDesc _).sublist (List.take_sublist _ _)
  · rw [hL, List.length_map, List.length_take]
    exact min_le_left _ _
  · intro hlen
    rw [hL]
    have h1 : (recentAddedRows m d).length =
        (m.filter fun r =>
          decide (d - 7 ≤ r.first_seen ∧ r.first_seen ≠ date20260115 ∧
            r.removed_date = none)).length :=
      (List.perm_insertionSort fsDesc _).length_eq
    have h2 : (recentAddedRows m d).take 1000 = recentAddedRows m d :=
      List.take_of_length_le (h1 ▸ hlen)
    rw [h2]
    exact (List.perm_insertionSort fsDesc _).map projAdded

theorem c6_amended_witness :
    ((generateStats [c6row] 20471 0).added_last_7_days).Pairwise pfsDesc ∧
    ((generateStats [c6row] 20471 0).added_last_7_days).Perm
      (([c6row].filter fun r =>
        decide ((20471 : Int) - 7 ≤ r.first_seen ∧ r.first_seen ≠ date20260115 ∧
          r.removed_date = none)).map projAdded) :=
  ⟨(c6_amended [c6row] 20471 0 (by decide)).1,
    (c6_amended [c6row] 20471 0 (by decide)).2.2 (by decide)⟩

/-- Entry of the history ledger: `{date, added, removed, total}`. -/
structure HistEntry where
  date : Int
  added : Nat
  removed : Nat
  total : Nat
deriving DecidableEq

/-- Ascending-date order used to sort the ledger
(`history_data.sort(key=lambda x: x["date"])`). -/
def histLe (a b : HistEntry) : Prop := a.date ≤ b.date

instance : DecidableRel histLe := fun a b =>
  inferInstanceAs (Decidable (a.date ≤ b.date))

instance : IsTotal HistEntry histLe := ⟨fun a b => le_total a.date b.date⟩

instance : IsTrans HistEntry histLe := ⟨fun _ _ _ h1 h2 => le_trans h1 h2⟩

/-- Upsert of `update_history_log`: the first ledger entry carrying the data
date is overwritten in place; if none exists the new entry is appended. -/
def upsertFirst (e : HistEntry) : List HistEntry → List HistEntry
  | [] => [e]
  | x :: xs => if x.date = e.date then e :: xs else x :: upsertFirst e xs

/-- Ledger entry recomputed from the master table by `update_history_log`
(the count expressions are duplicated verbatim from the source, which
recomputes them independently of `generate_stats`). -/
def histEntryOf (m : List Row) (d : Int) : HistEntry :=
  { date := d
    added := (m.filter fun r => decide (r.first_seen = d)).length
    removed := (m.filter fun r => decide (r.removed_date = some d)).length
    total := (m.filter fun r => decide (r.removed_date = none)).length }

/-- Model of `update_history_log`: upsert the entry for the data date, then
sort the ledger ascending by date. -/
def updateHistoryLog (hist : List HistEntry) (m : List Row) (d : Int) :
    List HistEntry :=
  List.insertionSort histLe (upsertFirst (histEntryOf m d) hist)

theorem mem_upsertFirst (e : HistEntry) :
    ∀ h : List HistEntry, e ∈ upsertFirst e h := by
  intro h
  induction h with
  | nil => simp [upsertFirst]
  | cons x xs ih =>
    unfold upsertFirst
    split_ifs
    · exact List.mem_cons_self _ _
    · exact List.mem_cons_of_mem _ ih

theorem upsertFirst_date_unique (e : HistEntry) :
    ∀ h : List HistEntry, ((h.map fun x => x.date).Nodup) →
      ∀ x ∈ upsertFirst e h, x.date = e.date → x = e := by
  intro h
  induction h with
  | nil =>
    intro _ x hx _
    simpa [upsertFirst] using hx
  | cons y ys ih =>
    intro hn x hx hxd
    rw [List.map_cons, List.nodup_cons] at hn
    unfold upsertFirst at hx
    split_ifs at hx with hd
    · rcases List.mem_cons.mp hx with h1 | h1
      · exact h1
      · exfalso
        have h2 : x.date ∈ ys.map fun z => z.date := List.mem_map_of_mem _ h1
        rw [hxd, ← hd] at h2
        exact hn.1 h2
    · rcases List.mem_cons.mp hx with h1 | h1
      · exact absurd (h1 ▸ hxd) hd
      · exact ih hn.2 x h1 hxd

theorem upsertFirst_eq_self (e : HistEntry) :
    ∀ h : List HistEntry, (∀ x ∈ h, x.date = e.date → x = e) →
      e.date ∈ (h.map fun x => x.date) → upsertFirst e h = h := by
  intro h
  induction h with
  | nil =>
    intro _ hmem
    simp at hmem
  | cons y ys ih =>
    intro hall hmem
    unfold upsertFirst
    split_ifs with hd
    · rw [hall y (List.mem_cons_self _ _) hd]
    · have hmem2 : e.date ∈ ys.map fun x => x.date := by
        rcases List.mem_cons.mp hmem with h1 | h1
        · exact absurd h1.symm hd
        · exact h1
      rw [ih (fun x hx => hall x (List.mem_cons_of_mem _ hx)) hmem2]

/-- C5: the `added_today`, `removed_today` and `total_active_sponsors` values
of the stats document equal the `added`, `removed` and `total` counts of the
ledger entry that `update_history_log` holds for the same data date (the
ledger is assumed well-formed: one entry per date). -/
theorem c5_stats_history_consistency (hist : List HistEntry) (m : List Row)
    (d t : Int) (hh : (hist.map fun e => e.date).Nodup) :
    ∀ e ∈ updateHistoryLog hist m d, e.date = d →
      e.added = (generateStats m d t).added_today ∧
      e.removed = (generateStats m d t).removed_today ∧
      e.total = (generateStats m d t).total_active_sponsors := by
  intro e he hed
  unfold updateHistoryLog at he
  have he2 : e ∈ upsertFirst (histEntryOf m d) hist :=
    (List.perm_insertionSort histLe _).mem_iff.mp he
  have he3 : e = histEntryOf m d :=
    upsertFirst_date_unique (histEntryOf m d) hist hh e he2 hed
  rw [he3]
  exact ⟨rfl, rfl, rfl⟩

/-- Active master row used by the C5 witness. -/
def c5row : Row :=
  { org := [65], city := [66], county := [], typeRating := [], route := [67],
    id := [65], first_seen := 0, last_updated := 0, removed_date := none }

theorem c5_witness :
    (histEntryOf [c5row] 0).added = (generateStats [c5row] 0 3).added_today ∧
    (histEntryOf [c5row] 0).removed = (generateStats [c5row] 0 3).removed_today ∧
    (histEntryOf [c5row] 0).total =
      (generateStats [c5row] 0 3).total_active_sponsors :=
  c5_stats_history_consistency [] [c5row] 0 3 (by simp) (histEntryOf [c5row] 0)
    (by decide) rfl

theorem stampUpdated_removed (ids : List Str) (d : Int) (r : Row) :
    (stampUpdated ids d r).removed_date = r.removed_date := by
  unfold stampUpdated
  split_ifs <;> rfl

theorem stampRemoved_none_iff (ids : List Str) (d : Int) (r : Row) :
    (stampRemoved ids d r).removed_date = none ↔
      r.removed_date = none ∧ r.id ∉ ids := by
  unfold stampRemoved
  split_ifs with h
  · constructor
    · intro h2
      simp at h2
    · rintro ⟨-, h3⟩
      exact (h3 h.1).elim
  · constructor
    · intro h2
      exact ⟨h2, fun hm => h ⟨hm, h2⟩⟩
    · exact fun h2 => h2.1

theorem applyRow_none_iff (snap : List SnapRow) (m : List Row) (d : Int) (r : Row) :
    (applyRow snap m d r).removed_date = none ↔
      r.removed_date = none ∧ r.id ∉ removedIdsOf snap m := by
  unfold applyRow
  rw [stampUpdated_removed, stampRemoved_none_iff]

theorem applyRow_active_present {snap : List SnapRow} {m : List Row} {d : Int}
    {r : Row} (hact : r.removed_date = none) (hid : r.id ∈ snapIds snap) :
    applyRow snap m d r = { r with last_updated := d } := by
  have hsr : stampRemoved (removedIdsOf snap m) d r = r := by
    unfold stampRemoved
    rw [if_neg]
    rintro ⟨hmem, -⟩
    exact (mem_removedIdsOf.mp hmem).2 hid
  unfold applyRow
  rw [hsr]
  unfold stampUpdated
  rw [if_pos hid]

theorem updateMaster_lastUpdated (snap : List SnapRow) (m : List Row) (d : Int) :
    ∀ r ∈ updateMaster snap m d, r.id ∈ snapIds snap → r.last_updated = d := by
  intro r hr hid
  unfold updateMaster at hr
  obtain ⟨r1, hr1, rfl⟩ := List.mem_map.mp hr
  rw [stampUpdated_id] at hid
  unfold stampUpdated
  rw [if_pos hid]

theorem snapIds_active_after (snap : List SnapRow) (m : List Row) (d : Int) :
    ∀ i ∈ snapIds snap, i ∈ activeIds (updateMaster snap m d) := by
  intro i hi
  unfold snapIds at hi
  obtain ⟨x, hx, rfl⟩ := List.mem_map.mp hi
  have hix : joinFields x ∈ snapIds snap := hi
  by_cases hact : joinFields x ∈ activeIds m
  · unfold activeIds activeRows at hact
    simp only [List.mem_map, List.mem_filter, decide_eq_true_eq] at hact
    obtain ⟨r, ⟨hrm, hrn⟩, hrid⟩ := hact
    have hid2 : r.id ∈ snapIds snap := by
      rw [hrid]
      exact hix
    have himg := @applyRow_active_present snap m d r hrn hid2
    unfold activeIds activeRows
    refine List.mem_map.mpr
      ⟨applyRow snap m d r, List.mem_filter.mpr ⟨?_, ?_⟩, ?_⟩
    · rw [updateMaster_eq]
      exact List.mem_append_left _ (List.mem_map_of_mem _ hrm)
    · rw [himg]
      simp [hrn]
    · rw [applyRow_id]
      exact hrid
  · have hadd : joinFields x ∈ addedIdsOf snap m := mem_addedIdsOf.mpr ⟨hix, hact⟩
    have hxmem : mkRow x d ∈ newEntriesOf snap m d := by
      unfold newEntriesOf
      exact List.mem_map_of_mem _ (List.mem_filter.mpr ⟨hx, by simpa using hadd⟩)
    have hnotrem : (mkRow x d).id ∉ removedIdsOf snap m := by
      intro hmem
      exact (mem_removedIdsOf.mp hmem).2 hix
    have himg : (applyRow snap m d (mkRow x d)).removed_date = none :=
      (applyRow_none_iff snap m d (mkRow x d)).mpr ⟨rfl, hnotrem⟩
    unfold activeIds activeRows
    refine List.mem_map.mpr
      ⟨applyRow snap m d (mkRow x d), List.mem_filter.mpr ⟨?_, ?_⟩, ?_⟩
    · rw [updateMaster_eq]
      exact List.mem_append_right _ (List.mem_map_of_mem _ hxmem)
    · simp [himg]
    · rw [applyRow_id]
      rfl

theorem active_after_sub (snap : List SnapRow) (m : List Row) (d : Int) :
    ∀ i ∈ activeIds (updateMaster snap m d), i ∈ snapIds snap := by
  intro i hi
  unfold activeIds activeRows at hi
  simp only [List.mem_map, List.mem_filter, decide_eq_true_eq] at hi
  obtain ⟨r, ⟨hrm, hrn⟩, rfl⟩ := hi
  rw [updateMaster_eq] at hrm
  rcases List.mem_append.mp hrm with hm1 | hm2
  · obtain ⟨r0, hr0, rfl⟩ := List.mem_map.mp hm1
    rw [applyRow_id]
    obtain ⟨h1, h2⟩ := (applyRow_none_iff snap m d r0).mp hrn
    by_contra hns
    exact h2 (mem_removedIdsOf.mpr ⟨mem_activeIds hr0 h1, hns⟩)
  · obtain ⟨r0, hr0, rfl⟩ := List.mem_map.mp hm2
    rw [applyRow_id]
    unfold newEntriesOf at hr0
    obtain ⟨x, hx2, rfl⟩ := List.mem_map.mp hr0
    have hadd := (List.mem_filter.mp hx2).2
    rw [decide_eq_true_eq] at hadd
    exact (mem_addedIdsOf.mp hadd).1

theorem updateMaster_idem (snap : List SnapRow) (m : List Row) (d : Int) :
    updateMaster snap (updateMaster snap m d) d = updateMaster snap m d := by
  have hadd : addedIdsOf snap (updateMaster snap m d) = [] := by
    unfold addedIdsOf
    apply List.filter_eq_nil_iff.mpr
    intro a ha h
    rw [decide_eq_true_eq] at h
    exact h (snapIds_active_after snap m d a ha)
  have hnew : newEntriesOf snap (updateMaster snap m d) d = [] := by
    unfold newEntriesOf
    rw [hadd]
    have h1 : ((snapDedup snap).filter fun r =>
        decide (joinFields r ∈ ([] : List Str))) = [] := by
      apply List.filter_eq_nil_iff.mpr
      intro a _
      simp
    rw [h1, List.map_nil]
  have hrem : removedIdsOf snap (updateMaster snap m d) = [] := by
    unfold removedIdsOf
    apply List.filter_eq_nil_iff.mpr
    intro a ha h
    rw [decide_eq_true_eq] at h
    exact h (active_after_sub snap m d a ha)
  show ((updateMaster snap m d ++ newEntriesOf snap (updateMaster snap m d) d).map
      (stampRemoved (removedIdsOf snap (updateMaster snap m d)) d)).map
      (stampUpdated (snapIds snap) d) = updateMaster snap m d
  rw [hnew, hrem, List.append_nil]
  have h1 : (updateMaster snap m d).map (stampRemoved [] d) = updateMaster snap m d := by
    apply List.map_id''
    intro r
    unfold stampRemoved
    rw [if_neg]
    rintro ⟨h2, -⟩
    simp at h2
  rw [h1]
  have h2 : ∀ r ∈ updateMaster snap m d, stampUpdated (snapIds snap) d r = r := by
    intro r hr
    unfold stampUpdated
    split_ifs with hmem
    · have h3 := updateMaster_lastUpdated snap m d r hr hmem
      rw [← h3]
    · rfl
  rw [List.map_congr_left h2, List.map_id']

theorem updateHistoryLog_idem (hist : List HistEntry) (m : List Row) (d : Int)
    (hh : (hist.map fun e => e.date).Nodup) :
    updateHistoryLog (updateHistoryLog hist m d) m d =
      updateHistoryLog hist m d := by
  unfold updateHistoryLog
  have h1 : ∀ x ∈ List.insertionSort histLe (upsertFirst (histEntryOf m d) hist),
      x.date = (histEntryOf m d).date → x = histEntryOf m d := by
    intro x hx hxd
    exact upsertFirst_date_unique (histEntryOf m d) hist hh x
      ((List.perm_insertionSort histLe _).mem_iff.mp hx) hxd
  have h2 : (histEntryOf m d).date ∈
      (List.insertionSort histLe (upsertFirst (histEntryOf m d) hist)).map
        fun x => x.date :=
    List.mem_map_of_mem _
      ((List.perm_insertionSort histLe _).mem_iff.mpr (mem_upsertFirst _ hist))
  rw [upsertFirst_eq_self _ _ h1 h2]
  exact List.Sorted.insertionSort_eq (List.sorted_insertionSort histLe _)

/-- Reduced row of the delta document's `added` list (`Organisation Name`,
`Town/City`, `Route`, `Type & Rating`, `first_seen`). -/
structure DeltaAdded where
  org : Str
  city : Str
  route : Str
  typeRating : Str
  first_seen : Int
deriving DecidableEq

/-- Reduced row of the delta document's `removed` list. -/
structure DeltaRemoved where
  org : Str
  city : Str
  route : Str
  typeRating : Str
  removed_date : Option Int
deriving DecidableEq

/-- Delta document written by `generate_daily_delta`. -/
structure Delta where
  date : Int
  added : List DeltaAdded
  removed : List DeltaRemoved
deriving DecidableEq

/-- Model of `generate_daily_delta`: the rows first seen on the data date and
the rows removed on the data date, projected to the reduced field set. -/
def generateDailyDelta (m : List Row) (d : Int) : Delta :=
  { date := d
    added := (m.filter fun r => decide (r.first_seen = d)).map
      fun r => ⟨r.org, r.city, r.route, r.typeRating, r.first_seen⟩
    removed := (m.filter fun r => decide (r.removed_date = some d)).map
      fun r => ⟨r.org, r.city, r.route, r.typeRating, r.removed_date⟩ }

/-- The four persisted artifacts: master CSV (absent before the first run),
stats document, history ledger (treated as empty when absent or unreadable)
and delta document. -/
structure PersistedState where
  master : Option (List Row)
  stats : Option Stats
  history : List HistEntry
  delta : Option Delta
deriving DecidableEq

/-- Master table loaded at the start of a run: the persisted one, or a fresh
empty table when no master file exists yet. -/
def masterOrEmpty (st : PersistedState) : List Row :=
  match st.master with
  | some m => m
  | none => []

/-- Success path of `main`: update the master register from the snapshot,
then derive stats (stamped with the wall-clock parameter `t`), history and
delta from the same updated table. -/
def runPipeline (st : PersistedState) (snap : List SnapRow) (d t : Int) :
    PersistedState :=
  { master := some (updateMaster snap (masterOrEmpty st) d)
    stats := some (generateStats (updateMaster snap (masterOrEmpty st) d) d t)
    history := updateHistoryLog st.history (updateMaster snap (masterOrEmpty st) d) d
    delta := some (generateDailyDelta (updateMaster snap (masterOrEmpty st) d) d) }

/-- Snapshot used by the C1 counterexample and witness. -/
def c1snap : List SnapRow := [⟨[65], [66], [], [], []⟩]

/-- Initial persisted state used by the C1 counterexample and witness. -/
def c1state : PersistedState :=
  { master := none, stats := none, history := [], delta := none }

/-- C1 (counterexample): running the same snapshot with the same data date a
second time does NOT reproduce the stats document byte for byte — its
`generated_at` field carries the wall clock of the second run (here the two
runs happen at wall-clock instants 0 and 1). -/
theorem c1_counterexample :
    (runPipeline (runPipeline c1state c1snap 0 0) c1snap 0 1).stats ≠
      (runPipeline c1state c1snap 0 0).stats := by decide

/-- C1 (amended): re-running the same snapshot with the same data date is
idempotent up to the stats document's wall-clock stamp: the master table,
history ledger and delta document are reproduced exactly, and the stats
document is reproduced exactly except that `generated_at` carries the second
run's wall clock (so two runs at the same instant agree byte for byte). The
initial ledger is assumed well-formed (one entry per date). -/
theorem c1_amended (st : PersistedState) (snap : List SnapRow) (d t1 t2 : Int)
    (hh : (st.history.map fun e => e.date).Nodup) :
    (runPipeline (runPipeline st snap d t1) snap d t2).master =
      (runPipeline st snap d t1).master ∧
    (runPipeline (runPipeline st snap d t1) snap d t2).history =
      (runPipeline st snap d t1).history ∧
    (runPipeline (runPipeline st snap d t1) snap d t2).delta =
      (runPipeline st snap d t1).delta ∧
    (runPipeline (runPipeline st snap d t1) snap d t2).stats =
      ((runPipeline st snap d t1).stats).map
        fun s => { s with generated_at := t2 } := by
  have hm : masterOrEmpty (runPipeline st snap d t1) =
      updateMaster snap (masterOrEmpty st) d := rfl
  have hidem := updateMaster_idem snap (masterOrEmpty st) d
  refine ⟨?_, ?_, ?_, ?_⟩
  · show some (updateMaster snap (masterOrEmpty (runPipeline st snap d t1)) d) =
      some (updateMaster snap (masterOrEmpty st) d)
    rw [hm, hidem]
  · show updateHistoryLog (runPipeline st snap d t1).history
        (updateMaster snap (masterOrEmpty (runPipeline st snap d t1)) d) d =
      updateHistoryLog st.history (updateMaster snap (masterOrEmpty st) d) d
    rw [hm, hidem]
    exact updateHistoryLog_idem st.history _ d hh
  · show some (generateDailyDelta
        (updateMaster snap (masterOrEmpty (runPipeline st snap d t1)) d) d) =
      some (generateDailyDelta (updateMaster snap (masterOrEmpty st) d) d)
    rw [hm, hidem]
  · show some (generateStats
        (updateMaster snap (masterOrEmpty (runPipeline st snap d t1)) d) d t2) =
      ((runPipeline st snap d t1).stats).map
        fun s => { s with generated_at := t2 }
    rw [hm, hidem]
    rfl

theorem c1_amended_witness :
    (runPipeline (runPipeline c1state c1snap 0 0) c1snap 0 1).master =
      (runPipeline c1state c1snap 0 0).master ∧
    (runPipeline (runPipeline c1state c1snap 0 0) c1snap 0 1).history =
      (runPipeline c1state c1snap 0 0).history ∧
    (runPipeline (runPipeline c1state c1snap 0 0) c1snap 0 1).delta =
      (runPipeline c1state c1snap 0 0).delta ∧
    (runPipeline (runPipeline c1state c1snap 0 0) c1snap 0 1).stats =
      ((runPipeline c1state c1snap 0 0).stats).map
        fun s => { s with generated_at := 1 } :=
  c1_amended c1state c1snap 0 0 1 (by decide)

/-- Failure points of one `main` invocation: the step that raises. -/
inductive FailPoint where
  | atFetch
  | atMaster
  | atStats
  | atHistory
  | atDelta
  | noFailure
deriving DecidableEq

/-- Model of `main` with an explicit failure point. Each step writes its own
artifact in order (master, stats, history, delta); the step that raises
leaves its artifact and all later ones untouched, and `main` aborts.
`update_master_register` computes the whole table in memory before writing,
so a failure inside it (or while fetching the snapshot) changes nothing. -/
def mainRun (st : PersistedState) (snap : List SnapRow) (d t : Int)
    (f : FailPoint) : PersistedState :=
  match f with
  | FailPoint.atFetch => st
  | FailPoint.atMaster => st
  | FailPoint.atStats =>
    { st with master := some (updateMaster snap (masterOrEmpty st) d) }
  | FailPoint.atHistory =>
    { st with
      master := some (updateMaster snap (masterOrEmpty st) d),
      stats := some (generateStats (updateMaster snap (masterOrEmpty st) d) d t) }
  | FailPoint.atDelta =>
    { st with
      master := some (updateMaster snap (masterOrEmpty st) d),
      stats := some (generateStats (updateMaster snap (masterOrEmpty st) d) d t),
      history := updateHistoryLog st.history
        (updateMaster snap (masterOrEmpty st) d) d }
  | FailPoint.noFailure => runPipeline st snap d t

/-- Snapshot used by the C4 counterexample. -/
def c4snap : List SnapRow := [⟨[65], [66], [], [], []⟩]

/-- Initial persisted state used by the C4 counterexample. -/
def c4state : PersistedState :=
  { master := some [], stats := none, history := [], delta := none }

/-- C4 (counterexample): a failure in `generate_stats` happens after
`update_master_register` has already overwritten the master file, so the
persisted state is NOT the pre-run state — the run is not atomic. -/
theorem c4_counterexample :
    mainRun c4state c4snap 0 0 FailPoint.atStats ≠ c4state := by decide

/-- C4 (amended): a failure while locating/downloading the snapshot or while
computing the new master table leaves every artifact untouched; but once the
master file is written, a failure in a later step leaves the master (and any
earlier downstream artifacts) updated while the failing and later artifacts
keep their previous contents. -/
theorem c4_amended (st : PersistedState) (snap : List SnapRow) (d t : Int) :
    mainRun st snap d t FailPoint.atFetch = st ∧
    mainRun st snap d t FailPoint.atMaster = st ∧
    (mainRun st snap d t FailPoint.atStats).stats = st.stats ∧
    (mainRun st snap d t FailPoint.atStats).history = st.history ∧
    (mainRun st snap d t FailPoint.atStats).delta = st.delta ∧
    (mainRun st snap d t FailPoint.atStats).master =
      some (updateMaster snap (masterOrEmpty st) d) ∧
    (mainRun st snap d t FailPoint.atHistory).history = st.history ∧
    (mainRun st snap d t FailPoint.atHistory).delta = st.delta ∧
    (mainRun st snap d t FailPoint.atDelta).delta = st.delta :=
  ⟨rfl, rfl, rfl, rfl, rfl, rfl, rfl, rfl, rfl⟩

theorem c8_amended_witness :
    rowIdent ⟨[65], [76, 79], [], [], []⟩ = rowIdent ⟨[65], [108, 111], [], [], []⟩ ∧
    rowIdent ⟨[66], [67], [], [], []⟩ ≠ rowIdent ⟨[68], [67], [], [], []⟩ ∧
    rowIdent ⟨[66], [67], [], [], [69]⟩ ≠ rowIdent ⟨[66], [67], [], [], [70]⟩ :=
  ⟨c8_amended.1 ⟨[65], [76, 79], [], [], []⟩ ⟨[65], [108, 111], [], [], []⟩
      rfl rfl rfl rfl (by decide),
    c8_amended.2.1 ⟨[66], [67], [], [], []⟩ ⟨[68], [67], [], [], []⟩
      (by decide) (by decide) (by decide),
    c8_amended.2.2 ⟨[66], [67], [], [], [69]⟩ ⟨[66], [67], [], [], [70]⟩
      rfl rfl rfl rfl (by decide)⟩
